import Mathlib

/-!
Verification of the Download Orchestration & Metadata Resolution Engine of
the `music-downloader` repository.  The Python sources
(`music_downloader/core/downloader.py`, `music_downloader/core/content_filter.py`)
are shallowly embedded below: pure text processing becomes functions on
`List Char`, floating point scores become exact rationals, the external
services (yt-dlp, musicbrainz, mutagen, the filesystem and the cancellation
signal) become explicit oracle parameters, and fallible steps return
`Except`.
-/

namespace MusicDL

set_option maxRecDepth 200000

/-! ## Python text primitives on `List Char` -/

/-- Python `str.strip()` (also used for `.strip()` after slicing): drop
whitespace from both ends. -/
def stripL (t : List Char) : List Char :=
  ((t.dropWhile Char.isWhitespace).reverse.dropWhile Char.isWhitespace).reverse

/-- Python `str.lower()` character-wise (ASCII case folding, which covers
every string the program compares). -/
def lowerL (t : List Char) : List Char := t.map Char.toLower

/-- Index just after the first occurrence of `pat` in `s` (`none` when `pat`
does not occur); backs Python's `in`, `find` and `split(sep, 1)`. -/
def findIdx? (pat : List Char) : List Char → Option Nat
  | [] => if pat = [] then some 0 else none
  | c :: cs =>
    if pat.isPrefixOf (c :: cs) then some 0
    else match findIdx? pat cs with
      | some i => some (i + 1)
      | none => none

/-- Python `pat in s` (substring containment). -/
def hasSub (pat s : List Char) : Bool := (findIdx? pat s).isSome

/-- Python `s.rindex(c)`-style last index of a character (`none` when the
character is absent, in which case the code never calls `rindex`). -/
def lastIdxOf (c : Char) : List Char → Option Nat
  | [] => none
  | x :: xs =>
    match lastIdxOf c xs with
    | some i => some (i + 1)
    | none => if x = c then some 0 else none

/-! ## `MusicDownloader._clean_title` (downloader.py lines 719-777) -/

/-- The fixed suffix catalog of `_clean_title` (downloader.py lines 730-754). -/
def suffixCatalog : List String :=
  ["(Official Music Video)", "(Official Video)", "(Official Audio)",
   "(Lyric Video)", "(Music Video)", "[Official Music Video]",
   "[Official Video]", "[Official Audio]", "[Lyric Video]", "[Music Video]",
   "(HD)", "(HQ)", "(4K)", "(1080p)", "(720p)", "(Official)", "(Audio)",
   "(Lyrics)", "Official Video", "Official Audio", "Lyric Video",
   "Music Video", "Official Music Video"]

/-- The featuring-indicator tokens of `_clean_title` (downloader.py line 763). -/
def featTokens : List String := ["ft.", "feat.", "featuring", "ft", "feat"]

/-- One pass of the suffix loop body for a single catalog entry
(downloader.py lines 756-760): strip it from the end, then (re-testing the
updated title) from the start, case-insensitively. -/
def sufStep (t : List Char) (suf : List Char) : List Char :=
  let t1 := if (lowerL suf).isSuffixOf (lowerL t)
    then stripL (t.take (t.length - suf.length)) else t
  if (lowerL suf).isPrefixOf (lowerL t1) then stripL (t1.drop suf.length) else t1

/-- The featuring loop (downloader.py lines 762-769).  Note the source
computes `lower_title` once, before the loop, and keeps using indices into
that original string while `title` shrinks; Python's clamping slice
semantics is mirrored by `List.take`. -/
def featPass (t0 : List Char) : List Char :=
  let lt := lowerL t0
  featTokens.foldl
    (fun t ind =>
      match findIdx? ind.data lt with
      | some i => if 0 < i then stripL (t.take i) else t
      | none => t) t0

/-- Fuel-indexed form of the trailing-group `while` loops (downloader.py
lines 772-775): while the title ends with `closeC` and contains `openC`,
cut at the last `openC` and strip.  Each iteration strictly shortens the
title, so `t.length` fuel always suffices (see `parenLoopF_shrink`). -/
def parenLoopF (openC closeC : Char) : Nat → List Char → List Char
  | 0, t => t
  | n + 1, t =>
    if t.getLast? = some closeC then
      match lastIdxOf openC t with
      | some i => parenLoopF openC closeC n (stripL (t.take i))
      | none => t
    else t

/-- The trailing parenthesized/bracketed group stripper. -/
def parenLoop (openC closeC : Char) (t : List Char) : List Char :=
  parenLoopF openC closeC t.length t

/-- Splitting stage (downloader.py lines 724-727): if `" - "` occurs, keep
only the (stripped) remainder after its first occurrence. -/
def dashSplit (t : List Char) : List Char :=
  match findIdx? " - ".data t with
  | some i => stripL (t.drop (i + 3))
  | none => t

/-- `MusicDownloader._clean_title` (downloader.py lines 719-777). -/
def cleanTitleL (t0 : List Char) : List Char :=
  let t := stripL t0
  let t := dashSplit t
  let t := (suffixCatalog.map String.data).foldl sufStep t
  let t := featPass t
  let t := parenLoop '(' ')' t
  let t := parenLoop '[' ']' t
  stripL t

/-- `_clean_title` on `String`. -/
def clean_title (s : String) : String := String.mk (cleanTitleL s.data)

/-- Python `s.strip()` on `String`. -/
def stripS (s : String) : String := String.mk (stripL s.data)

/-- Python `s.lower()` on `String`. -/
def lowerS (s : String) : String := String.mk (lowerL s.data)

/-- Python `pat in s` on `String`. -/
def hasSubS (pat s : String) : Bool := hasSub pat.data s.data

/-- Python `s[:n]` on `String`. -/
def takeS (n : Nat) (s : String) : String := String.mk (s.data.take n)

/-! ## ContentFilter (content_filter.py) -/

/-- The character class removed by `clean_filename`
(content_filter.py line 26). -/
def forbiddenChars : List Char := ['<', '>', ':', '"', '/', '\\', '|', '?', '*']

/-- `re.sub` of the forbidden class with the empty string
(content_filter.py line 26). -/
def removeForbidden (s : List Char) : List Char :=
  s.filter (fun c => !(forbiddenChars.contains c))

/-- One whitespace-delimited word as flushed by the censor.  Modelled from
the spec: `better_profanity.censor` is an external dependency whose sources
are not in this repository; the spec calls it a word-list censor, the code
comment at content_filter.py line 28 says it replaces profanity with
asterisks, and the library's documented default is four `*` characters per
censored word.  The word test itself stays an oracle `isProf`. -/
def censorEmit (isProf : List Char → Bool) (w : List Char) : List Char :=
  if w = [] then [] else if isProf w then "****".data else w

/-- Walk the text keeping whitespace as-is and passing each maximal
non-whitespace run through `censorEmit`. -/
def censorAux (isProf : List Char → Bool) : List Char → List Char → List Char
  | [], acc => censorEmit isProf acc
  | c :: cs, acc =>
    if c.isWhitespace then censorEmit isProf acc ++ c :: censorAux isProf cs []
    else censorAux isProf cs (acc ++ [c])

/-- `better_profanity.profanity.censor` (see `censorEmit`). -/
def censorL (isProf : List Char → Bool) (s : List Char) : List Char :=
  censorAux isProf s []

/-- `ContentFilter.clean_filename` (content_filter.py lines 23-32): remove
the forbidden characters, censor profanity when the filter is enabled,
then strip. -/
def cleanFilenameL (enabled : Bool) (isProf : List Char → Bool) (s : List Char) : List Char :=
  let cleaned := removeForbidden s
  let cleaned := if enabled then censorL isProf cleaned else cleaned
  stripL cleaned

/-- `clean_filename` on `String`. -/
def clean_filename (enabled : Bool) (isProf : List Char → Bool) (s : String) : String :=
  String.mk (cleanFilenameL enabled isProf s.data)

/-- `ContentFilter.contains_profanity` (content_filter.py lines 17-21). -/
def contains_profanity (enabled : Bool) (isProf : String → Bool) (text : String) : Bool :=
  if enabled then isProf text else false

/-- A one-word stand-in for the external censor word list ("damn" is on
better_profanity's default list); used only to build concrete runs. -/
def demoProf (w : List Char) : Bool := w = "damn".data

/-- Stand-in for `profanity.contains_profanity` with the same single word. -/
def demoProfS (s : String) : Bool := hasSubS "damn" s

/-! ## `MusicDownloader._score_result` (downloader.py lines 170-251) -/

/-- A yt-dlp search entry as consumed by `_score_result`; absent dict keys
are folded into the defaults the code supplies via `.get`, and the
like/dislike counts keep their key-presence bit. -/
structure SearchEntry where
  title : String
  channel : String
  duration : Int
  channelVerified : Bool
  viewCount : Nat
  likeCount : Option Nat
  dislikeCount : Option Nat

/-- The undesired-version keyword list (downloader.py lines 224-228). -/
def penaltyTerms : List String :=
  ["live", "cover", "remix", "instrumental", "karaoke", "extended", "concert",
   "performance", "rehearsal", "demo", "acoustic", "remake", "remaster",
   "mix", "mashup"]

/-- Duration shaping (downloader.py lines 190-196). -/
def durationScore (d : Int) : Rat :=
  if 180 ≤ d ∧ d ≤ 360 then 5
  else if 120 ≤ d ∧ d ≤ 480 then 3
  else if 480 < d then -5
  else 0

/-- Title keyword bonuses and the music-video penalty
(downloader.py lines 198-221). -/
def titleKeywordScore (lt : String) : Rat :=
  (if hasSubS "official audio" lt then 25 else if hasSubS "audio" lt then 15 else 0)
  + (if hasSubS "lyric video" lt ∨ hasSubS "lyrics" lt then 20 else 0)
  + (if hasSubS "radio edit" lt ∨ hasSubS "radio version" lt then 12 else 0)
  + (if hasSubS "official" lt then 10 else 0)
  + (if hasSubS "official video" lt ∨ hasSubS "music video" lt then -5 else 0)

/-- The per-keyword −8 accumulation (downloader.py lines 229-231). -/
def penaltySum (lt : String) : Rat :=
  (penaltyTerms.map (fun term => if hasSubS term lt then (-8 : Rat) else 0)).sum

/-- Like-ratio bonus (downloader.py lines 243-249); `none` means the dict
key is absent, the value is the count after Python's `or 0`. -/
def likeBonus : Option Nat → Option Nat → Rat
  | some likes, some dislikes =>
    if 0 < likes + dislikes then
      ((likes : Rat) / ((likes : Rat) + (dislikes : Rat))) * 3
    else 0
  | _, _ => 0

/-- `MusicDownloader._score_result`; the content filter's `enabled` flag and
the external profanity test are parameters. -/
def score_result (enabled : Bool) (prof : String → Bool) (e : SearchEntry) (q : String) : Rat :=
  let title := lowerS e.title
  let channel := lowerS e.channel
  let query := lowerS q
  if enabled ∧ (prof title ∨ prof channel) then -100
  else
    (if hasSubS query title then 10 else 0)
    + durationScore e.duration
    + titleKeywordScore title
    + penaltySum title
    + (if e.channelVerified then 5 else 0)
    + (if 0 < e.viewCount then min 5 ((e.viewCount : Rat) / 1000000) else 0)
    + likeBonus e.likeCount e.dislikeCount

/-! ## MetadataResolver (downloader.py lines 607-717) -/

/-- A release inside a MusicBrainz recording record; `none` models an
absent dict key. -/
structure MBRelease where
  title : Option String
  date : Option String

/-- A tag entry of a record. -/
structure MBTag where
  name : Option String

/-- A MusicBrainz recording record as consumed by `_score_metadata_match`
and `fetch_metadata`; `none` models an absent dict key. -/
structure MBRecord where
  title : Option String
  artistCreditPhrase : Option String
  releaseList : Option (List MBRelease)
  tagList : Option (List MBTag)
  isrcList : Option (List String)

/-- Python truthiness of `recording.get(key)` for a list-valued key:
present and non-empty. -/
def truthyList {α : Type} : Option (List α) → Bool
  | some (_ :: _) => true
  | _ => false

/-- Python `str.split()`: maximal non-whitespace runs. -/
def splitWsAux : List Char → List Char → List (List Char)
  | [], acc => if acc = [] then [] else [acc.reverse]
  | c :: cs, acc =>
    if c.isWhitespace then
      if acc = [] then splitWsAux cs [] else acc.reverse :: splitWsAux cs []
    else splitWsAux cs (c :: acc)

/-- Python `set(s.split())` (order is irrelevant to the code, which only
takes sizes and intersections). -/
def wordSet (s : String) : List (List Char) := (splitWsAux s.data []).eraseDups

/-- `len(a & b)` for the deduplicated word lists. -/
def interCount (a b : List (List Char)) : Nat :=
  (a.filter (fun w => b.contains w)).length

/-- `MusicDownloader._score_metadata_match` (downloader.py lines 607-647). -/
def score_metadata_match (r : MBRecord) (artist title : String) : Rat :=
  let recTitle := lowerS (r.title.getD "")
  let recArtist := lowerS (r.artistCreditPhrase.getD "")
  let artistL := lowerS artist
  let titleL := lowerS title
  let tPart : Rat :=
    if recTitle = titleL then 1/2
    else
      let tw := wordSet titleL
      let rw := wordSet recTitle
      let common := interCount tw rw
      if 0 < common then (1/2) * ((common : Rat) / (max tw.length rw.length : Rat)) else 0
  let aPart : Rat :=
    if recArtist = artistL then 1/2
    else
      let aw := wordSet artistL
      let rw := wordSet recArtist
      let common := interCount aw rw
      if 0 < common then (1/2) * ((common : Rat) / (max aw.length rw.length : Rat)) else 0
  let bonus : Rat :=
    (if truthyList r.releaseList then 1/20 else 0)
    + (if truthyList r.isrcList then 1/20 else 0)
  min 1 (tPart + aPart + bonus)

/-- `TrackMetadata` (downloader.py lines 20-27). -/
structure TrackMetadata where
  title : String
  artist : String
  album : String := ""
  year : String := ""
  genre : String := ""
deriving DecidableEq

/-- Strategy A's query string (downloader.py line 662). -/
def queryA (artist title : String) : String :=
  "artistname:\"" ++ artist ++ "\" AND recording:\"" ++ title ++ "\""

/-- Strategy B's query string (downloader.py line 688). -/
def queryB (title : String) : String := "recording:\"" ++ title ++ "\""

/-- Building `TrackMetadata` from an accepted record (downloader.py lines
676-682 and 701-708).  `best_match.get('release-list', [{}])[0]` defaults
an absent key to a one-element list holding an empty dict, but indexes `[0]`
of a present-but-empty list, which raises `IndexError` (caught by the outer
`except`, hence `Except`); same for `tag-list`. -/
def buildTrackMetadata (best : MBRecord) (title artist : String) :
    Except Unit TrackMetadata :=
  match (best.releaseList.getD [{ title := none, date := none }]).head? with
  | none => Except.error ()
  | some rel0 =>
    match (best.tagList.getD [{ name := none }]).head? with
    | none => Except.error ()
    | some tag0 =>
      Except.ok
        { title := best.title.getD title
          artist := best.artistCreditPhrase.getD artist
          album := rel0.title.getD ""
          year := takeS 4 (rel0.date.getD "")
          genre := tag0.name.getD "" }

/-- One strategy of `fetch_metadata` (downloader.py lines 666-682 resp.
692-708): score every returned record in order, look only at the first
scored pair, and accept it only when its score reaches the threshold. -/
def strategyPick (recs : List MBRecord) (threshold : Rat) (artist title : String) :
    Except Unit (Option TrackMetadata) :=
  let scored := recs.map (fun r => (score_metadata_match r artist title, r))
  match scored with
  | [] => Except.ok none
  | (sc, r) :: _ =>
    if threshold ≤ sc then (buildTrackMetadata r title artist).map some
    else Except.ok none

/-- `MusicDownloader.fetch_metadata` (downloader.py lines 649-717); the
MusicBrainz `search_recordings` call is the oracle `search` (query string,
limit) and any raised error inside the `try` falls through to the fallback
metadata. -/
def fetch_metadata (search : String → Nat → Except Unit (List MBRecord))
    (artist0 title0 : String) : TrackMetadata :=
  let title := clean_title title0
  let artist := stripS artist0
  let attempt : Except Unit (Option TrackMetadata) :=
    match search (queryA artist title) 5 with
    | Except.error e => Except.error e
    | Except.ok recsA =>
      match strategyPick recsA (7 / 10) artist title with
      | Except.error e => Except.error e
      | Except.ok (some m) => Except.ok (some m)
      | Except.ok none =>
        match search (queryB title) 10 with
        | Except.error e => Except.error e
        | Except.ok recsB => strategyPick recsB (8 / 10) artist title
  match attempt with
  | Except.ok (some m) => m
  | _ => { title := title, artist := artist }

/-! ## TagWriter (downloader.py lines 488-546 and 779-821) -/

/-- A metadata dict as handed to `_update_metadata`. -/
abbrev MetaDict := List (String × String)

/-- The audio file's tag store, keyed by EasyID3 field name. -/
abbrev Tags := String → Option String

/-- `tags[k] = v`. -/
def setTag (t : Tags) (k v : String) : Tags :=
  fun k' => if k' = k then some v else t k'

/-- A file with no ID3 header, or the fresh header created on
`ID3NoHeaderError` (downloader.py lines 499-504). -/
def emptyTags : Tags := fun _ => none

/-- The field keys `_update_metadata` maps, in program order
(downloader.py lines 507-516). -/
def tagKeys : List String := ["title", "artist", "album", "date", "genre"]

/-- The tag mapping block of `_update_metadata` (downloader.py lines
506-516): for each of the five keys, if the key is present in the dict the
tag is assigned its value, whatever it is. -/
def updateTags (t : Tags) (md : MetaDict) : Tags :=
  tagKeys.foldl
    (fun t k =>
      match md.lookup k with
      | some v => setTag t k v
      | none => t) t

/-- `_update_metadata`'s effect on the tag store, with the surrounding file
I/O abstracted: a missing header is replaced by a fresh empty one, then the
mapping block runs. -/
def update_metadata_tags (existing : Option Tags) (md : MetaDict) : Tags :=
  updateTags (existing.getD emptyTags) md

/-- The tag assignments of `apply_metadata` (downloader.py lines 798-807):
title and artist unconditionally, album/year/genre only when truthy. -/
def applyTags (t : Tags) (m : TrackMetadata) : Tags :=
  let t := setTag t "title" m.title
  let t := setTag t "artist" m.artist
  let t := if m.album ≠ "" then setTag t "album" m.album else t
  let t := if m.year ≠ "" then setTag t "date" m.year else t
  if m.genre ≠ "" then setTag t "genre" m.genre else t

/-! ## DownloadOrchestrator: `download_track` (downloader.py lines 253-385) -/

/-- Python exception classes relevant to `download_track`'s handlers. -/
inductive PyErr where
  | runtime (msg : String)
  | valueError (msg : String)
  | fileNotFound (msg : String)
  | downloadError (msg : String)
  | other (msg : String)
deriving DecidableEq

/-- The exception's `str(e)`. -/
def PyErr.msg : PyErr → String
  | .runtime m => m
  | .valueError m => m
  | .fileNotFound m => m
  | .downloadError m => m
  | .other m => m

/-- `isinstance(e, RuntimeError)`. -/
def PyErr.isRuntime : PyErr → Bool
  | .runtime _ => true
  | _ => false

/-- downloader.py lines 303-318: yt-dlp `DownloadError`s are rewrapped as
user-facing `RuntimeError`s keyed on the message; other exception classes
pass through unmapped. -/
def mapDownloadErr (e : PyErr) : PyErr :=
  match e with
  | .downloadError m =>
    if hasSubS "HTTP Error 403" m then
      .runtime "YouTube is blocking our requests. Please try again later."
    else if hasSubS "Video unavailable" m then
      .runtime "This video is not available. It might be private or deleted."
    else if hasSubS "Sign in" m then
      .runtime "This video requires age verification or sign in."
    else .runtime ("Download failed: " ++ m)
  | e => e

/-- The extraction info used by `download_track`; absent keys are folded
into `""` defaults, matching the `.get(..., '')` calls. -/
structure VideoInfo where
  title : String
  channel : String
  album : String
  uploadDate : String
  genre : String

/-- The metadata dict built at downloader.py lines 336-342. -/
def videoMetaDict (info : VideoInfo) : MetaDict :=
  [("title", clean_title info.title),
   ("artist", info.channel),
   ("album", info.album),
   ("date", if info.uploadDate ≠ "" then takeS 4 info.uploadDate else ""),
   ("genre", info.genre)]

/-- Observable events on the shared cancellation flag.  `orchWrite` is an
assignment performed by `download_track` itself, `orchRead` a poll,
`extSet` an external `cancel_download`. -/
inductive FlagEv where
  | orchWrite (b : Bool)
  | orchRead (b : Bool)
  | extSet
deriving DecidableEq

/-- The environment of one `download_track` run: the external services, the
caller's callback configuration, the interference schedule of
`cancel_download` calls, the initial directory listing next to the output
path, and the flag value left over on entry. -/
structure DTEnv where
  hasCallback : Bool
  extractInfo : Except PyErr (Option VideoInfo)
  getOutputPath : VideoInfo → Except PyErr String
  download : List String → Except PyErr (List String)
  hookCbs : List (String × Rat)
  updateMeta : MetaDict → Except PyErr MetaDict
  interfere : Nat → Bool
  fs0 : List String
  cancelled0 : Bool

/-- The mutable state threaded through the run: the cancellation flag, the
files in the output directory, the poll counter, the callback invocations
so far and the flag events so far. -/
structure DTState where
  cancelled : Bool
  fs : List String
  tick : Nat
  cbs : List (String × Rat)
  evs : List FlagEv

/-- `if progress_callback: progress_callback(m, p)`. -/
def emitCb (env : DTEnv) (s : DTState) (m : String) (p : Rat) : DTState :=
  if env.hasCallback then { s with cbs := s.cbs ++ [(m, p)] } else s

/-- The yt-dlp hook callbacks fired while the download step runs; they go
through `self._current_callback`, so only when a callback is installed. -/
def emitHookCbs (env : DTEnv) (s : DTState) : DTState :=
  if env.hasCallback then { s with cbs := s.cbs ++ env.hookCbs } else s

/-- Poll `self._cancelled`.  Before the poll the external caller may have
run `cancel_download` (the `interfere` schedule); the poll itself is an
orchestrator read, never a write. -/
def readFlag (env : DTEnv) (s : DTState) : Bool × DTState :=
  let s := if env.interfere s.tick then
      { s with cancelled := true, evs := s.evs ++ [FlagEv.extSet] } else s
  let s := { s with tick := s.tick + 1, evs := s.evs ++ [FlagEv.orchRead s.cancelled] }
  (s.cancelled, s)

/-- An assignment to `self._cancelled` performed by the orchestrator. -/
def writeFlag (s : DTState) (b : Bool) : DTState :=
  { s with cancelled := b, evs := s.evs ++ [FlagEv.orchWrite b] }

/-- `MusicDownloader.cancel_download` (downloader.py lines 823-826), run by
the external caller. -/
def cancel_download (s : DTState) : DTState :=
  { s with cancelled := true, evs := s.evs ++ [FlagEv.extSet] }

/-- Delete one file. -/
def removeFile (fs : List String) (f : String) : List String :=
  fs.filter (fun g => g ≠ f)

/-- The glob pattern `f"{stem}.*"` used by the failure cleanup
(downloader.py line 372). -/
def matchesStem (stem f : String) : Bool := (stem ++ ".").isPrefixOf f

/-- The tagging step (downloader.py lines 344-355): poll the flag (line
348), and when clear run `_update_metadata`; on an exception log and warn
through the callback — never fail the task. -/
def dtTagStep (env : DTEnv) (md : MetaDict) (s : DTState) : DTState :=
  let r4 := readFlag env s
  if ¬r4.1 then
    match env.updateMeta md with
    | Except.ok _ => r4.2
    | Except.error _ =>
      emitCb env r4.2 "Warning: Metadata update failed, but download succeeded" (19 / 20)
  else r4.2

/-- The completion step (downloader.py lines 357-364): when a callback is
installed the flag is polled once more (short-circuit of line 358); if
clear, the file is re-verified and "Download complete!" fires; the MP3 path
is returned in every case. -/
def dtComplete (env : DTEnv) (stem : String) (s : DTState) :
    Except PyErr String × Option String × DTState :=
  if env.hasCallback then
    let r5 := readFlag env s
    if ¬r5.1 then
      if (stem ++ ".mp3") ∉ r5.2.fs then
        (Except.error (PyErr.fileNotFound "Downloaded file not found at expected location"),
          some stem, r5.2)
      else
        (Except.ok (stem ++ ".mp3"), some stem, emitCb env r5.2 "Download complete!" 1)
    else (Except.ok (stem ++ ".mp3"), some stem, r5.2)
  else (Except.ok (stem ++ ".mp3"), some stem, s)

/-- Post-download verification and metadata finalization (downloader.py
lines 328-364): the converted MP3 must exist, then the metadata dict is
built, announced, written (non-fatally) and the task completes. -/
def dtFinish (env : DTEnv) (stem : String) (info : VideoInfo) (s : DTState) :
    Except PyErr String × Option String × DTState :=
  if (stem ++ ".mp3") ∉ s.fs then
    (Except.error (PyErr.fileNotFound "Converted MP3 file not found"), some stem, s)
  else
    dtComplete env stem
      (dtTagStep env (videoMetaDict info)
        (emitCb env s "Finalizing metadata..." (19 / 20)))

/-- From the download return onward (downloader.py lines 320-364): the
yt-dlp hook callbacks have fired, the flag is polled (line 320) — when set,
the output file is unlinked if present and the cancellation is raised —
otherwise verification and finishing proceed. -/
def dtAfterDownload (env : DTEnv) (stem : String) (info : VideoInfo) (s : DTState) :
    Except PyErr String × Option String × DTState :=
  let s3 := emitHookCbs env s
  let r3 := readFlag env s3
  if r3.1 then
    let s4 := if (stem ++ ".mp3") ∈ r3.2.fs
      then { r3.2 with fs := removeFile r3.2.fs (stem ++ ".mp3") } else r3.2
    (Except.error (PyErr.runtime "Download cancelled"), some stem, s4)
  else dtFinish env stem info r3.2

/-- From path resolution onward (downloader.py lines 287-364): the flag is
polled (line 288), the extraction service downloads and transcodes directly
to the resolved path (its `DownloadError`s are rewrapped), and the run
proceeds past the download. -/
def dtAfterPath (env : DTEnv) (stem : String) (info : VideoInfo) (s : DTState) :
    Except PyErr String × Option String × DTState :=
  let r2 := readFlag env s
  if r2.1 then (Except.error (PyErr.runtime "Download cancelled"), some stem, r2.2)
  else
    match env.download r2.2.fs with
    | Except.error e => (Except.error (mapDownloadErr e), some stem, r2.2)
    | Except.ok fs1 => dtAfterDownload env stem info { r2.2 with fs := fs1 }

/-- Path resolution for the fetched info (downloader.py lines 284-285,
which may raise) followed by the rest of the run. -/
def dtWithInfo (env : DTEnv) (info : VideoInfo) (s : DTState) :
    Except PyErr String × Option String × DTState :=
  match env.getOutputPath info with
  | Except.error e => (Except.error e, none, s)
  | Except.ok stem => dtAfterPath env stem info s

/-- The `try` block of `download_track` (downloader.py lines 266-364),
returning the result, the resolved output-path stem (`output_path` is
always `<stem>.mp3`) and the final state.  Each `if self._cancelled` of the
source is a `readFlag`; the short-circuit at line 358 polls the flag only
when a callback is installed. -/
def dtBody (env : DTEnv) (s0 : DTState) :
    Except PyErr String × Option String × DTState :=
  let s1 := emitCb env s0 "Fetching video info..." (1 / 10)
  let r1 := readFlag env s1
  if r1.1 then (Except.error (PyErr.runtime "Download cancelled"), none, r1.2)
  else
    match env.extractInfo with
    | Except.error e => (Except.error e, none, r1.2)
    | Except.ok none =>
      (Except.error (PyErr.valueError "Failed to get video info"), none, r1.2)
    | Except.ok (some info) => dtWithInfo env info r1.2

/-- The failure text handed to the callback (downloader.py lines 377-381). -/
def failMsg (e : PyErr) : String :=
  if e.isRuntime then e.msg else "Download failed: " ++ e.msg

/-- Outcome of one `download_track` run. -/
structure DTResult where
  result : Except PyErr String
  resolved : Option String
  final : DTState

/-- The `except`/`finally` wrapper of `download_track` (downloader.py lines
366-385) applied to the outcome of the `try` body: a success just runs the
`finally` flag reset; an exception first deletes every `stem.*` sibling of
the resolved output path, then reports the failure through the callback,
then re-raises (the `finally` reset still runs). -/
def dtWrap (env : DTEnv) : Except PyErr String × Option String × DTState → DTResult
  | (Except.ok p, res, s) =>
    { result := Except.ok p, resolved := res, final := writeFlag s false }
  | (Except.error e, res, s) =>
    let s1 :=
      match res with
      | some stem => { s with fs := s.fs.filter (fun f => !(matchesStem stem f)) }
      | none => s
    let s2 := emitCb env s1 (failMsg e) 0
    { result := Except.error e, resolved := res, final := writeFlag s2 false }

/-- `MusicDownloader.download_track` (downloader.py lines 253-385): reset
the callback slot and the cancellation flag, announce the start, run the
`try` body, and wrap its outcome in the `except`/`finally` handling. -/
def download_track (env : DTEnv) : DTResult :=
  let s : DTState :=
    { cancelled := env.cancelled0, fs := env.fs0, tick := 0, cbs := [], evs := [] }
  dtWrap env (dtBody env (emitCb env (writeFlag s false) "Starting download..." 0))

/-! ## Concrete records, entries and environments for the concrete runs -/

/-- A low-scoring MusicBrainz record sharing no words with the target. -/
def mbR1 : MBRecord :=
  { title := some "completely different words here"
    artistCreditPhrase := some "nobody known at all"
    releaseList := none, tagList := none, isrcList := none }

/-- An exactly matching MusicBrainz record carrying album data. -/
def mbR2 : MBRecord :=
  { title := some "Some Title"
    artistCreditPhrase := some "Some Artist"
    releaseList := some [{ title := some "Great Album", date := some "1999-01-01" }]
    tagList := none, isrcList := none }

/-- An exactly matching record whose release date is only two characters. -/
def mbR3 : MBRecord :=
  { title := some "Some Title"
    artistCreditPhrase := some "Some Artist"
    releaseList := some [{ title := some "Great Album", date := some "99" }]
    tagList := none, isrcList := none }

/-- Lookup service returning the poor match first and the perfect match
second on strategy A, and nothing on any other query. -/
def envC2 : String → Nat → Except Unit (List MBRecord) :=
  fun q _ =>
    if q = queryA "Some Artist" "Some Title" then Except.ok [mbR1, mbR2]
    else Except.ok []

/-- Lookup service whose accepted record has the two-character date. -/
def envC8 : String → Nat → Except Unit (List MBRecord) :=
  fun q _ =>
    if q = queryA "Some Artist" "Some Title" then Except.ok [mbR3]
    else Except.ok []

/-- Lookup service answering every query with the well-dated record. -/
def envYear : String → Nat → Except Unit (List MBRecord) :=
  fun _ _ => Except.ok [mbR2]

/-- Lookup service raising on every call. -/
def envRaise : String → Nat → Except Unit (List MBRecord) :=
  fun _ _ => Except.error ()

/-- A profanity-flagged candidate. -/
def entryFlagged : SearchEntry :=
  { title := "damn song", channel := "x", duration := 200
    channelVerified := false, viewCount := 0, likeCount := none, dislikeCount := none }

/-- A clean candidate whose title stacks twelve (thirteen counting "mix"
inside "remix") undesired-version keywords and runs over eight minutes. -/
def entryPenalized : SearchEntry :=
  { title := "live cover remix instrumental karaoke extended concert rehearsal demo acoustic remake mashup"
    channel := "x", duration := 500
    channelVerified := false, viewCount := 0, likeCount := none, dislikeCount := none }

/-- A clean, well-formed candidate. -/
def entryClean : SearchEntry :=
  { title := "test song official audio", channel := "nice channel", duration := 200
    channelVerified := true, viewCount := 2000000, likeCount := some 100, dislikeCount := some 0 }

/-- The extraction info of the concrete orchestrator runs. -/
def infoDemo : VideoInfo :=
  { title := "Test Song", channel := "Test Artist", album := ""
    uploadDate := "20200101", genre := "" }

/-- An orchestrator run whose download step raises a yt-dlp error after the
output path resolved, with stale siblings of the stem on disk. -/
def envDlFail : DTEnv :=
  { hasCallback := true
    extractInfo := Except.ok (some infoDemo)
    getOutputPath := fun _ => Except.ok "Test Song"
    download := fun _ => Except.error (PyErr.downloadError "HTTP Error 403: Forbidden")
    hookCbs := []
    updateMeta := fun md => Except.ok md
    interfere := fun _ => false
    fs0 := ["Test Song.part", "Test Song.webp", "other.txt"]
    cancelled0 := false }

/-- An orchestrator run entered with a stale `true` cancellation flag; the
flag reset at entry is what the run observes. -/
def envStaleFlag : DTEnv :=
  { hasCallback := true
    extractInfo := Except.ok (some infoDemo)
    getOutputPath := fun _ => Except.ok "Test Song"
    download := fun fs => Except.ok (fs ++ ["Test Song.mp3"])
    hookCbs := []
    updateMeta := fun md => Except.ok md
    interfere := fun _ => false
    fs0 := []
    cancelled0 := true }

/-- An orchestrator run whose tag-writing step raises after a successful
download. -/
def envTagFail : DTEnv :=
  { hasCallback := true
    extractInfo := Except.ok (some infoDemo)
    getOutputPath := fun _ => Except.ok "Test Song"
    download := fun fs => Except.ok (fs ++ ["Test Song.mp3"])
    hookCbs := [("Downloading: 50.0%", 7 / 20)]
    updateMeta := fun _ => Except.error (PyErr.other "Metadata update failed")
    interfere := fun _ => false
    fs0 := []
    cancelled0 := false }

/-- The metadata dict of the tag-writer runs: all five keys present, three
of them with empty values. -/
def mdDemo : MetaDict :=
  [("title", "T"), ("artist", "A"), ("album", ""), ("date", ""), ("genre", "")]

/-! ## Progress-or-fixpoint structure of `_clean_title`

Every stage of the normalizer either returns its input unchanged or returns
a strictly shorter string; this is the property behind the amended form of
the idempotence claim. -/

/-- A text stage that never lengthens its input and changes it only by
strictly shortening it. -/
def ShrinkStep (f : List Char → List Char) : Prop :=
  ∀ t, (f t).length ≤ t.length ∧ ((f t).length = t.length → f t = t)

theorem shrinkStep_comp {f g : List Char → List Char}
    (hf : ShrinkStep f) (hg : ShrinkStep g) : ShrinkStep (fun t => g (f t)) := by
  intro t
  show (g (f t)).length ≤ t.length ∧ ((g (f t)).length = t.length → g (f t) = t)
  obtain ⟨hf1, hf2⟩ := hf t
  obtain ⟨hg1, hg2⟩ := hg (f t)
  refine ⟨hg1.trans hf1, fun h => ?_⟩
  have hlen : (f t).length = t.length := le_antisymm hf1 (h ▸ hg1)
  have hft : f t = t := hf2 hlen
  exact (hg2 (h.trans hlen.symm)).trans hft

theorem dropWhile_length_le (p : Char → Bool) (t : List Char) :
    (t.dropWhile p).length ≤ t.length := by
  induction t with
  | nil => simp
  | cons c cs ih =>
    rw [List.dropWhile_cons]
    by_cases h : p c
    · have := ih
      simp only [h, if_true, List.length_cons]
      omega
    · simp [h]

theorem dropWhile_eq_of_length (p : Char → Bool) (t : List Char)
    (h : (t.dropWhile p).length = t.length) : t.dropWhile p = t := by
  induction t with
  | nil => simp
  | cons c cs ih =>
    rw [List.dropWhile_cons] at h ⊢
    by_cases hp : p c
    · exfalso
      have hle := dropWhile_length_le p cs
      simp only [hp, if_true] at h
      simp only [List.length_cons] at h
      omega
    · simp [hp]

theorem stripL_shrink : ShrinkStep stripL := by
  intro t
  unfold stripL
  constructor
  · calc ((t.dropWhile Char.isWhitespace).reverse.dropWhile Char.isWhitespace).reverse.length
        = ((t.dropWhile Char.isWhitespace).reverse.dropWhile Char.isWhitespace).length := by
          rw [List.length_reverse]
      _ ≤ (t.dropWhile Char.isWhitespace).reverse.length := dropWhile_length_le _ _
      _ = (t.dropWhile Char.isWhitespace).length := by rw [List.length_reverse]
      _ ≤ t.length := dropWhile_length_le _ _
  · intro h
    rw [List.length_reverse] at h
    have h1 : (t.dropWhile Char.isWhitespace).length ≤ t.length := dropWhile_length_le _ _
    have h2 : ((t.dropWhile Char.isWhitespace).reverse.dropWhile Char.isWhitespace).length ≤
        (t.dropWhile Char.isWhitespace).reverse.length := dropWhile_length_le _ _
    rw [List.length_reverse] at h2
    have e1 : (t.dropWhile Char.isWhitespace).length = t.length := by omega
    have e0 : t.dropWhile Char.isWhitespace = t := dropWhile_eq_of_length _ _ e1
    rw [e0] at h ⊢
    have e2 : (t.reverse.dropWhile Char.isWhitespace) = t.reverse := by
      apply dropWhile_eq_of_length
      rw [List.length_reverse]
      omega
    rw [e2, List.reverse_reverse]

theorem lowerL_length (t : List Char) : (lowerL t).length = t.length :=
  List.length_map t Char.toLower

theorem findIdx?_some_bound {pat t : List Char} {i : Nat}
    (h : findIdx? pat t = some i) : i + pat.length ≤ t.length := by
  induction t generalizing i with
  | nil =>
    unfold findIdx? at h
    by_cases hp : pat = ([] : List Char)
    · simp [hp] at h ⊢; omega
    · simp [hp] at h
  | cons c cs ih =>
    unfold findIdx? at h
    by_cases hp : pat.isPrefixOf (c :: cs)
    · simp only [hp, if_true] at h
      cases h
      have := (List.isPrefixOf_iff_prefix.mp hp).length_le
      simpa using this
    · simp only [hp, if_false] at h
      cases he : findIdx? pat cs with
      | none => rw [he] at h; cases h
      | some j =>
        rw [he] at h
        cases h
        have := ih he
        simp only [List.length_cons]
        omega

theorem dashSplit_shrink : ShrinkStep dashSplit := by
  intro t
  cases he : findIdx? " - ".data t with
  | none =>
    have hres : dashSplit t = t := by unfold dashSplit; rw [he]
    rw [hres]
    exact ⟨le_refl _, fun _ => rfl⟩
  | some i =>
    have hres : dashSplit t = stripL (t.drop (i + 3)) := by unfold dashSplit; rw [he]
    have hb := findIdx?_some_bound he
    have hpat : (" - ".data).length = 3 := rfl
    rw [hpat] at hb
    obtain ⟨hs1, _⟩ := stripL_shrink (t.drop (i + 3))
    have hd : (t.drop (i + 3)).length = t.length - (i + 3) := List.length_drop _ _
    rw [hres]
    constructor
    · omega
    · intro h; omega

theorem condShrink (c : List Char → Prop) [DecidablePred c] (g : List Char → List Char)
    (hg : ∀ t, c t → (g t).length ≤ t.length ∧ ((g t).length = t.length → g t = t)) :
    ShrinkStep (fun t => if c t then g t else t) := by
  intro t
  show (if c t then g t else t).length ≤ t.length ∧
    ((if c t then g t else t).length = t.length → (if c t then g t else t) = t)
  by_cases h : c t
  · rw [if_pos h]
    exact hg t h
  · rw [if_neg h]
    exact ⟨le_refl _, fun _ => rfl⟩

theorem sufStep_shrink (suf : List Char) (hsuf : suf ≠ []) :
    ShrinkStep (fun t => sufStep t suf) := by
  have hn : 1 ≤ suf.length := by
    cases suf with
    | nil => exact absurd rfl hsuf
    | cons a as => simp
  have hstep1 : ShrinkStep (fun t =>
      if (lowerL suf).isSuffixOf (lowerL t) = true
        then stripL (t.take (t.length - suf.length)) else t) := by
    apply condShrink
    intro t h
    have hls : (lowerL suf).length ≤ (lowerL t).length :=
      (List.isSuffixOf_iff_suffix.mp h).length_le
    rw [lowerL_length, lowerL_length] at hls
    obtain ⟨hs1, _⟩ := stripL_shrink (t.take (t.length - suf.length))
    have ht : (t.take (t.length - suf.length)).length = min (t.length - suf.length) t.length :=
      List.length_take _ _
    constructor
    · omega
    · intro hlen; omega
  have hstep2 : ShrinkStep (fun t =>
      if (lowerL suf).isPrefixOf (lowerL t) = true then stripL (t.drop suf.length) else t) := by
    apply condShrink
    intro t h
    have hls : (lowerL suf).length ≤ (lowerL t).length :=
      (List.isPrefixOf_iff_prefix.mp h).length_le
    rw [lowerL_length, lowerL_length] at hls
    obtain ⟨hs1, _⟩ := stripL_shrink (t.drop suf.length)
    have ht : (t.drop suf.length).length = t.length - suf.length := List.length_drop _ _
    constructor
    · omega
    · intro hlen; omega
  have hcomp := shrinkStep_comp hstep1 hstep2
  intro t
  obtain ⟨h1, h2⟩ := hcomp t
  exact ⟨h1, h2⟩

theorem foldl_shrink {α : Type} (step : List Char → α → List Char) (l : List α)
    (h : ∀ a ∈ l, ShrinkStep (fun t => step t a)) :
    ShrinkStep (fun t => l.foldl step t) := by
  induction l with
  | nil =>
    intro t
    show (List.foldl step t []).length ≤ t.length ∧ _
    exact ⟨le_refl _, fun _ => rfl⟩
  | cons a as ih =>
    have ha : ShrinkStep (fun t => step t a) := h a (List.mem_cons_self a as)
    have has : ShrinkStep (fun t => as.foldl step t) :=
      ih (fun b hb => h b (List.mem_cons_of_mem a hb))
    have hcomp := shrinkStep_comp ha has
    intro t
    show (List.foldl step t (a :: as)).length ≤ t.length ∧ _
    rw [List.foldl_cons]
    exact hcomp t

theorem takeStrip_shrink (i : Nat) : ShrinkStep (fun t => stripL (t.take i)) := by
  intro t
  show (stripL (t.take i)).length ≤ t.length ∧
    ((stripL (t.take i)).length = t.length → stripL (t.take i) = t)
  obtain ⟨hs1, hs2⟩ := stripL_shrink (t.take i)
  have ht : (t.take i).length = min i t.length := List.length_take _ _
  constructor
  · calc (stripL (t.take i)).length ≤ (t.take i).length := hs1
      _ ≤ t.length := by omega
  · intro h
    have h1 : (t.take i).length = t.length := by omega
    have h2 : t.take i = t := by
      apply List.take_of_length_le
      omega
    have h3 : (stripL (t.take i)).length = (t.take i).length := by rw [h1]; exact h
    rw [hs2 h3]
    exact h2

theorem featStep_shrink (lt : List Char) (ind : String) :
    ShrinkStep (fun t =>
      match findIdx? ind.data lt with
      | some i => if 0 < i then stripL (t.take i) else t
      | none => t) := by
  cases he : findIdx? ind.data lt with
  | none =>
    intro t
    exact ⟨le_refl _, fun _ => rfl⟩
  | some i =>
    intro t
    show (if 0 < i then stripL (t.take i) else t).length ≤ t.length ∧
      ((if 0 < i then stripL (t.take i) else t).length = t.length →
        (if 0 < i then stripL (t.take i) else t) = t)
    by_cases hi : 0 < i
    · rw [if_pos hi]
      exact takeStrip_shrink i t
    · rw [if_neg hi]
      exact ⟨le_refl _, fun _ => rfl⟩

theorem featPass_shrink : ShrinkStep featPass := by
  intro t0
  have h : ShrinkStep (fun t => featTokens.foldl
      (fun t ind =>
        match findIdx? ind.data (lowerL t0) with
        | some i => if 0 < i then stripL (t.take i) else t
        | none => t) t) := by
    apply foldl_shrink
    intro ind _
    exact featStep_shrink (lowerL t0) ind
  exact h t0

theorem lastIdxOf_lt {c : Char} {t : List Char} {i : Nat}
    (h : lastIdxOf c t = some i) : i < t.length := by
  induction t generalizing i with
  | nil => simp [lastIdxOf] at h
  | cons x xs ih =>
    unfold lastIdxOf at h
    cases he : lastIdxOf c xs with
    | some j =>
      rw [he] at h
      cases h
      have := ih he
      simp only [List.length_cons]
      omega
    | none =>
      rw [he] at h
      by_cases hx : x = c
      · simp only [hx, if_true] at h
        cases h
        simp
      · simp [hx] at h

theorem parenLoopF_shrink (openC closeC : Char) (n : Nat) :
    ShrinkStep (parenLoopF openC closeC n) := by
  induction n with
  | zero => intro t; exact ⟨le_refl _, fun _ => rfl⟩
  | succ n ih =>
    intro t
    by_cases hc : t.getLast? = some closeC
    · cases he : lastIdxOf openC t with
      | none =>
        have hres : parenLoopF openC closeC (n + 1) t = t := by
          show (if t.getLast? = some closeC then
              match lastIdxOf openC t with
              | some i => parenLoopF openC closeC n (stripL (t.take i))
              | none => t
            else t) = t
          rw [if_pos hc, he]
        rw [hres]
        exact ⟨le_refl _, fun _ => rfl⟩
      | some i =>
        have hres : parenLoopF openC closeC (n + 1) t
            = parenLoopF openC closeC n (stripL (t.take i)) := by
          show (if t.getLast? = some closeC then
              match lastIdxOf openC t with
              | some i => parenLoopF openC closeC n (stripL (t.take i))
              | none => t
            else t) = _
          rw [if_pos hc, he]
        have hi := lastIdxOf_lt he
        obtain ⟨h1, _⟩ := ih (stripL (t.take i))
        have ht : (t.take i).length = min i t.length := List.length_take _ _
        obtain ⟨h3, _⟩ := stripL_shrink (t.take i)
        rw [hres]
        constructor
        · omega
        · intro h; omega
    · have hres : parenLoopF openC closeC (n + 1) t = t := by
        show (if t.getLast? = some closeC then
            match lastIdxOf openC t with
            | some i => parenLoopF openC closeC n (stripL (t.take i))
            | none => t
          else t) = t
        rw [if_neg hc]
      rw [hres]
      exact ⟨le_refl _, fun _ => rfl⟩

theorem parenLoop_shrink (openC closeC : Char) : ShrinkStep (parenLoop openC closeC) := by
  intro t
  exact parenLoopF_shrink openC closeC t.length t

theorem suffixFold_shrink :
    ShrinkStep (fun t => (suffixCatalog.map String.data).foldl sufStep t) := by
  apply foldl_shrink
  intro a ha
  apply sufStep_shrink
  simp only [List.mem_map] at ha
  obtain ⟨s, hs, rfl⟩ := ha
  fin_cases hs <;> decide

theorem cleanTitleL_shrink : ShrinkStep cleanTitleL := by
  have h :=
    shrinkStep_comp
      (shrinkStep_comp
        (shrinkStep_comp
          (shrinkStep_comp
            (shrinkStep_comp (shrinkStep_comp stripL_shrink dashSplit_shrink)
              suffixFold_shrink)
            featPass_shrink)
          (parenLoop_shrink '(' ')'))
        (parenLoop_shrink '[' ']'))
      stripL_shrink
  intro t
  exact h t

/-! ## Helper lemmas for the content filter -/

theorem mem_of_mem_dropWhile {p : Char → Bool} {t : List Char} {c : Char}
    (h : c ∈ t.dropWhile p) : c ∈ t :=
  (List.dropWhile_sublist p (l := t)).subset h

theorem mem_of_mem_stripL {t : List Char} {c : Char} (h : c ∈ stripL t) : c ∈ t := by
  unfold stripL at h
  rw [List.mem_reverse] at h
  have h1 := mem_of_mem_dropWhile h
  rw [List.mem_reverse] at h1
  exact mem_of_mem_dropWhile h1

theorem mem_of_mem_censorEmit {isProf : List Char → Bool} {w : List Char} {c : Char}
    (h : c ∈ censorEmit isProf w) : c ∈ w ∨ c = '*' := by
  unfold censorEmit at h
  by_cases hw : w = ([] : List Char)
  · rw [if_pos hw] at h
    cases h
  · rw [if_neg hw] at h
    by_cases hp : isProf w = true
    · rw [if_pos hp] at h
      right
      have : c ∈ ['*', '*', '*', '*'] := h
      simpa using this
    · rw [if_neg hp] at h
      exact Or.inl h

theorem mem_of_mem_censorAux {isProf : List Char → Bool} :
    ∀ {s acc : List Char} {c : Char},
      c ∈ censorAux isProf s acc → c ∈ s ∨ c ∈ acc ∨ c = '*' := by
  intro s
  induction s with
  | nil =>
    intro acc c h
    rcases mem_of_mem_censorEmit h with h1 | h1
    · exact Or.inr (Or.inl h1)
    · exact Or.inr (Or.inr h1)
  | cons c1 cs ih =>
    intro acc c h
    unfold censorAux at h
    by_cases hw : c1.isWhitespace
    · rw [if_pos hw] at h
      rcases List.mem_append.mp h with h1 | h1
      · rcases mem_of_mem_censorEmit h1 with h2 | h2
        · exact Or.inr (Or.inl h2)
        · exact Or.inr (Or.inr h2)
      · rcases List.mem_cons.mp h1 with h2 | h2
        · exact Or.inl (h2 ▸ List.mem_cons_self c1 cs)
        · rcases ih h2 with h3 | h3 | h3
          · exact Or.inl (List.mem_cons_of_mem c1 h3)
          · cases h3
          · exact Or.inr (Or.inr h3)
    · rw [if_neg hw] at h
      rcases ih h with h3 | h3 | h3
      · exact Or.inl (List.mem_cons_of_mem c1 h3)
      · rcases List.mem_append.mp h3 with h4 | h4
        · exact Or.inr (Or.inl h4)
        · have : c = c1 := by simpa using h4
          exact Or.inl (this ▸ List.mem_cons_self c1 cs)
      · exact Or.inr (Or.inr h3)

theorem not_forbidden_of_mem_removeForbidden {s : List Char} {c : Char}
    (h : c ∈ removeForbidden s) : c ∉ forbiddenChars := by
  unfold removeForbidden at h
  have h2 := List.of_mem_filter h
  intro hmem
  have h3 : forbiddenChars.contains c = true := List.elem_eq_true_of_mem hmem
  rw [h3] at h2
  cases h2

/-! ## Claim C4: idempotence of the title normalizer -/

/-- C4 counterexample: `_clean_title` is not idempotent.  On
`"A - B - C"` one application keeps `"B - C"` (the artist-prefix split
happens once per call), and a second application strips another prefix,
giving `"C"`. -/
theorem clean_title_not_idempotent :
    clean_title (clean_title "A - B - C") ≠ clean_title "A - B - C" := by
  have h1 : clean_title "A - B - C" = "B - C" := rfl
  have h2 : clean_title "B - C" = "C" := rfl
  rw [h1, h2]
  decide

/-- C4 (amended): re-applying `_clean_title` to its own output either
returns that output unchanged or returns a strictly shorter string (each
pass is a progress-or-fixpoint step, so iteration stabilizes, but a single
re-application can still change the result, as on `"A - B - C"`). -/
theorem clean_title_reapply_eq_or_shorter (s : String) :
    clean_title (clean_title s) = clean_title s ∨
      (clean_title (clean_title s)).length < (clean_title s).length := by
  obtain ⟨h1, h2⟩ := cleanTitleL_shrink (cleanTitleL s.data)
  have hdata : ∀ l : List Char, (String.mk l).data = l := fun _ => rfl
  have hlen : ∀ l : List Char, (String.mk l).length = l.length := fun _ => rfl
  have hct : ∀ u : String, clean_title u = String.mk (cleanTitleL u.data) := fun _ => rfl
  rw [hct s, hct (String.mk (cleanTitleL s.data)), hdata, hlen, hlen]
  rcases Nat.lt_or_ge (cleanTitleL (cleanTitleL s.data)).length (cleanTitleL s.data).length
    with h | h
  · exact Or.inr h
  · left
    have heq : (cleanTitleL (cleanTitleL s.data)).length = (cleanTitleL s.data).length :=
      le_antisymm h1 h
    rw [h2 heq]

/-! ## Claim C3: clean_filename and the forbidden characters -/

/-- C3 counterexample: with the content filter enabled, `clean_filename`
can output the forbidden character `*`: the character class is removed
first and the profanity censor then substitutes `****` for a profane word,
so `clean_filename("damn") = "****"`. -/
theorem clean_filename_emits_forbidden :
    clean_filename true demoProf "damn" = "****" ∧
      '*' ∈ (clean_filename true demoProf "damn").data ∧ '*' ∈ forbiddenChars := by
  refine ⟨rfl, ?_, by decide⟩
  decide

/-- C3 (amended): `clean_filename` never throws (it is a total function)
and its output contains none of the characters `<>:"/\|?*`, except that
with the content filter enabled the censor can introduce `*` characters;
with the filter disabled the output contains none of them at all. -/
theorem clean_filename_no_forbidden (enabled : Bool) (isProf : List Char → Bool)
    (s : String) (c : Char) (hc : c ∈ (clean_filename enabled isProf s).data) :
    c ∉ forbiddenChars ∨ (c = '*' ∧ enabled = true) := by
  have hc' : c ∈ cleanFilenameL enabled isProf s.data := hc
  unfold cleanFilenameL at hc'
  cases enabled with
  | false =>
    have hc2 := mem_of_mem_stripL hc'
    rw [if_neg (by simp)] at hc2
    exact Or.inl (not_forbidden_of_mem_removeForbidden hc2)
  | true =>
    have hc2 := mem_of_mem_stripL hc'
    rw [if_pos rfl] at hc2
    rcases mem_of_mem_censorAux hc2 with h1 | h1 | h1
    · exact Or.inl (not_forbidden_of_mem_removeForbidden h1)
    · cases h1
    · exact Or.inr ⟨h1, rfl⟩

/-- Witness for C3's theorem at a concrete input. -/
theorem clean_filename_no_forbidden_witness :
    ('a' ∈ (clean_filename false demoProf "a<b").data) ∧
      ('a' ∉ forbiddenChars ∨ ('a' = '*' ∧ false = true)) :=
  ⟨by decide, clean_filename_no_forbidden false demoProf "a<b" 'a' (by decide)⟩

/-! ## Claim C6: lookup failure falls back, never propagates -/

/-- C6: when every call to the metadata lookup service raises,
`fetch_metadata` does not propagate the error and returns the fallback
metadata built from the cleaned title and stripped artist; in particular
for `("Some Artist", "Some Title")` it returns exactly the fallback record
with empty album, year and genre. -/
theorem fetch_metadata_lookup_error_fallback
    (search : String → Nat → Except Unit (List MBRecord))
    (h : ∀ q n, search q n = Except.error ()) (a t : String) :
    fetch_metadata search a t = { title := clean_title t, artist := stripS a } ∧
    fetch_metadata search "Some Artist" "Some Title" =
      { title := "Some Title", artist := "Some Artist",
        album := "", year := "", genre := "" } := by
  constructor
  · simp only [fetch_metadata]
    rw [h]
  · simp only [fetch_metadata]
    rw [h]
    rfl

/-- Witness for C6's theorem with a service raising on every call. -/
theorem fetch_metadata_lookup_error_fallback_witness :
    fetch_metadata envRaise "Some Artist" "Some Title" =
      { title := "Some Title", artist := "Some Artist",
        album := "", year := "", genre := "" } :=
  (fetch_metadata_lookup_error_fallback envRaise (fun _ _ => rfl) "Some Artist" "Some Title").2

/-! ## Claim C2: which record does fetch_metadata accept? -/

/-- C2 counterexample: the lookup returns `[mbR1, mbR2]` where the second
record scores 1 (≥ 0.70) and strictly above the first, yet `fetch_metadata`
returns the fallback instead of the metadata of the highest-scoring record:
the code never sorts and only examines `scored_results[0]`, the first
record in service order. -/
theorem fetch_metadata_ignores_best :
    (7 / 10 : Rat) ≤ score_metadata_match mbR2 "Some Artist" "Some Title" ∧
    score_metadata_match mbR1 "Some Artist" "Some Title"
      < score_metadata_match mbR2 "Some Artist" "Some Title" ∧
    envC2 (queryA "Some Artist" "Some Title") 5 = Except.ok [mbR1, mbR2] ∧
    buildTrackMetadata mbR2 "Some Title" "Some Artist" =
      Except.ok { title := "Some Title", artist := "Some Artist",
                  album := "Great Album", year := "1999", genre := "" } ∧
    fetch_metadata envC2 "Some Artist" "Some Title" =
      { title := "Some Title", artist := "Some Artist" } := by
  refine ⟨by with_unfolding_all decide, by with_unfolding_all decide, rfl, rfl, ?_⟩
  with_unfolding_all decide

/-- C2 (amended): each strategy of `fetch_metadata` examines only the
first record of the service-returned list: strategy A accepts that first
record exactly when its score is at least 0.70 (and its metadata builds),
regardless of the scores of later records; when the first record scores
below 0.70 the strategy falls through even if a later record scores
higher. -/
theorem fetch_metadata_first_record_only
    (search : String → Nat → Except Unit (List MBRecord)) (a t : String)
    (r : MBRecord) (rest : List MBRecord) (m : TrackMetadata)
    (hA : search (queryA (stripS a) (clean_title t)) 5 = Except.ok (r :: rest)) :
    (7 / 10 ≤ score_metadata_match r (stripS a) (clean_title t) →
      buildTrackMetadata r (clean_title t) (stripS a) = Except.ok m →
      fetch_metadata search a t = m) ∧
    (score_metadata_match r (stripS a) (clean_title t) < 7 / 10 →
      search (queryB (clean_title t)) 10 = Except.ok [] →
      fetch_metadata search a t = { title := clean_title t, artist := stripS a }) := by
  constructor
  · intro hsc hb
    simp only [fetch_metadata]
    rw [hA]
    simp only [strategyPick, List.map_cons]
    rw [if_pos hsc, hb]
    rfl
  · intro hsc hB
    simp only [fetch_metadata]
    rw [hA]
    simp only [strategyPick, List.map_cons]
    rw [if_neg (not_le.mpr hsc), hB]
    rfl

/-- Witness for C2's theorem: on the counterexample environment the head
record scores 0 < 0.70, so the run falls through to the fallback. -/
theorem fetch_metadata_first_record_only_witness :
    fetch_metadata envC2 "Some Artist" "Some Title" =
      { title := "Some Title", artist := "Some Artist" } :=
  (fetch_metadata_first_record_only envC2 "Some Artist" "Some Title" mbR1 [mbR2]
    { title := "", artist := "" } rfl).2 (by with_unfolding_all decide) rfl

/-! ## Claim C8: the year invariant -/

theorem takeS_length (n : Nat) (s : String) : (takeS n s).length = min n s.data.length :=
  List.length_take n s.data

theorem buildTrackMetadata_year {best : MBRecord} {tt aa : String} {m : TrackMetadata}
    (h : buildTrackMetadata best tt aa = Except.ok m) :
    ∃ rel ∈ best.releaseList.getD [{ title := none, date := none }],
      m.year = takeS 4 (rel.date.getD "") := by
  unfold buildTrackMetadata at h
  cases hrl : (best.releaseList.getD [{ title := none, date := none }]).head? with
  | none => rw [hrl] at h; cases h
  | some rel0 =>
    rw [hrl] at h
    cases htl : (best.tagList.getD [{ name := none }]).head? with
    | none => rw [htl] at h; cases h
    | some tag0 =>
      rw [htl] at h
      have hm := Except.ok.inj h
      refine ⟨rel0, ?_, ?_⟩
      · cases hl : best.releaseList.getD [{ title := none, date := none }] with
        | nil => rw [hl] at hrl; cases hrl
        | cons x xs =>
          rw [hl] at hrl
          have hx : x = rel0 := by simpa using hrl
          rw [← hx]
          exact List.mem_cons_self x xs
      · rw [← hm]

theorem strategyPick_shape (recs : List MBRecord) (threshold : Rat) (artist title : String) :
    strategyPick recs threshold artist title = Except.ok none ∨
    strategyPick recs threshold artist title = Except.error () ∨
    ∃ r rest m, recs = r :: rest ∧
      strategyPick recs threshold artist title = Except.ok (some m) ∧
      buildTrackMetadata r title artist = Except.ok m := by
  cases recs with
  | nil => exact Or.inl rfl
  | cons r rest =>
    simp only [strategyPick, List.map_cons]
    by_cases hsc : threshold ≤ score_metadata_match r artist title
    · rw [if_pos hsc]
      cases hb : buildTrackMetadata r title artist with
      | error e =>
        right; left
        cases e
        rfl
      | ok m =>
        right; right
        exact ⟨r, rest, m, rfl, rfl, hb⟩
    · rw [if_neg hsc]
      exact Or.inl rfl

theorem fetch_metadata_shape (search : String → Nat → Except Unit (List MBRecord))
    (a t : String) :
    fetch_metadata search a t = { title := clean_title t, artist := stripS a } ∨
    ∃ r rest m, fetch_metadata search a t = m ∧
      buildTrackMetadata r (clean_title t) (stripS a) = Except.ok m ∧
      (search (queryA (stripS a) (clean_title t)) 5 = Except.ok (r :: rest) ∨
       search (queryB (clean_title t)) 10 = Except.ok (r :: rest)) := by
  cases hA : search (queryA (stripS a) (clean_title t)) 5 with
  | error e =>
    left
    cases e
    simp only [fetch_metadata, hA]
  | ok recsA =>
    rcases strategyPick_shape recsA (7 / 10) (stripS a) (clean_title t) with
      hp | hp | ⟨r, rest, m, hrec, hp, hb⟩
    · cases hB : search (queryB (clean_title t)) 10 with
      | error e =>
        left
        cases e
        simp only [fetch_metadata, hA, hp, hB]
      | ok recsB =>
        rcases strategyPick_shape recsB (8 / 10) (stripS a) (clean_title t) with
          hq | hq | ⟨r, rest, m, hrec, hq, hb⟩
        · left
          simp only [fetch_metadata, hA, hp, hB, hq]
        · left
          simp only [fetch_metadata, hA, hp, hB, hq]
        · right
          refine ⟨r, rest, m, ?_, hb, Or.inr (by rw [← hrec])⟩
          simp only [fetch_metadata, hA, hp, hB, hq]
    · left
      simp only [fetch_metadata, hA, hp]
    · right
      refine ⟨r, rest, m, ?_, hb, Or.inl (by rw [← hrec])⟩
      simp only [fetch_metadata, hA, hp]

/-- C8 counterexample: when the lookup service returns a record whose
release date is the two-character string `"99"`, the accepted
`TrackMetadata` has the non-empty two-character year `"99"`, violating the
4-character invariant: the code takes `date[:4]` without checking the date
is at least 4 characters long. -/
theorem fetch_metadata_year_two_chars :
    (fetch_metadata envC8 "Some Artist" "Some Title").year = "99" ∧
    (fetch_metadata envC8 "Some Artist" "Some Title").year ≠ "" ∧
    (fetch_metadata envC8 "Some Artist" "Some Title").year.length ≠ 4 := by
  refine ⟨?_, ?_, ?_⟩ <;> with_unfolding_all decide

/-- C8 (amended): a produced `TrackMetadata`'s year is always the at most
4-character prefix of the matched release date (empty for the fallback), so
its length never exceeds 4; it is exactly 4 characters whenever every date
the lookup service returns is empty or at least 4 characters long — the
invariant as stated holds only under that assumption on the service. -/
theorem fetch_metadata_year_at_most_four
    (search : String → Nat → Except Unit (List MBRecord)) (a t : String) :
    (fetch_metadata search a t).year.length ≤ 4 ∧
    ((∀ q n recs r rel, search q n = Except.ok recs → r ∈ recs →
        rel ∈ r.releaseList.getD [{ title := none, date := none }] →
        rel.date.getD "" = "" ∨ 4 ≤ (rel.date.getD "").length) →
      ((fetch_metadata search a t).year = "" ∨
        (fetch_metadata search a t).year.length = 4)) := by
  rcases fetch_metadata_shape search a t with h | ⟨r, rest, m, hm, hb, hsrc⟩
  · constructor
    · rw [h]
      show ("" : String).length ≤ 4
      decide
    · intro _
      left
      rw [h]
  · obtain ⟨rel, hrelmem, hyear⟩ := buildTrackMetadata_year hb
    have hbridge : ∀ u : String, u.length = u.data.length := fun _ => rfl
    constructor
    · rw [hm, hyear, takeS_length]
      omega
    · intro hhyp
      have hdate : rel.date.getD "" = "" ∨ 4 ≤ (rel.date.getD "").length := by
        rcases hsrc with hs | hs
        · exact hhyp _ _ _ r rel hs (List.mem_cons_self r rest) hrelmem
        · exact hhyp _ _ _ r rel hs (List.mem_cons_self r rest) hrelmem
      rcases hdate with hd | hd
      · left
        rw [hm, hyear, hd]
        rfl
      · right
        rw [hm, hyear, takeS_length]
        rw [hbridge] at hd
        omega

/-- Witness for C8's theorem on a service whose only record carries a full
date. -/
theorem fetch_metadata_year_at_most_four_witness :
    (fetch_metadata envYear "Some Artist" "Some Title").year = "" ∨
      (fetch_metadata envYear "Some Artist" "Some Title").year.length = 4 :=
  (fetch_metadata_year_at_most_four envYear "Some Artist" "Some Title").2 (by
    intro q n recs r rel hq hr hrel
    have h2 : Except.ok (ε := Unit) [mbR2] = Except.ok recs := hq
    have hrecs : [mbR2] = recs := Except.ok.inj h2
    rw [← hrecs] at hr
    have hr2 : r = mbR2 := by simpa using hr
    rw [hr2] at hrel
    have hrel2 : rel = { title := some "Great Album", date := some "1999-01-01" } := by
      simpa [mbR2] using hrel
    rw [hrel2]
    right
    decide)

/-! ## Claim C5: profanity-flagged candidates versus clean candidates -/

theorem mapSum_penalty (l : List String) (p : String → Bool) :
    (l.map (fun term => if p term then (-8 : Rat) else 0)).sum
      = -8 * ((l.filter p).length : Rat) := by
  induction l with
  | nil => simp
  | cons x xs ih =>
    by_cases hx : p x
    · simp only [List.map_cons, List.sum_cons, List.filter_cons, hx, if_true, ih,
        List.length_cons]
      push_cast
      ring
    · simp only [List.map_cons, List.sum_cons, List.filter_cons, hx, if_false, ih]
      simp [hx]

theorem likeBonus_nonneg (a b : Option Nat) : (0 : Rat) ≤ likeBonus a b := by
  cases a with
  | none => exact le_refl (0 : Rat)
  | some likes =>
    cases b with
    | none => exact le_refl (0 : Rat)
    | some dislikes =>
      show (0 : Rat) ≤
        if 0 < likes + dislikes then ((likes : Rat) / ((likes : Rat) + (dislikes : Rat))) * 3
        else 0
      split
      · exact mul_nonneg (div_nonneg (Nat.cast_nonneg _) (by positivity)) (by norm_num)
      · exact le_refl (0 : Rat)

theorem score_result_clean_lb (prof : String → Bool) (e : SearchEntry) (q : String)
    (h2 : prof (lowerS e.title) = false) (h2c : prof (lowerS e.channel) = false)
    (hpen : (penaltyTerms.filter (fun term => hasSubS term (lowerS e.title))).length ≤ 11) :
    (-98 : Rat) ≤ score_result true prof e q := by
  unfold score_result
  rw [if_neg (by simp [h2, h2c])]
  have b1 : (0 : Rat) ≤ if hasSubS (lowerS q) (lowerS e.title) then 10 else 0 := by
    split <;> norm_num
  have b2 : (-5 : Rat) ≤ durationScore e.duration := by
    unfold durationScore
    split_ifs <;> norm_num
  have b3 : (-5 : Rat) ≤ titleKeywordScore (lowerS e.title) := by
    unfold titleKeywordScore
    split_ifs <;> norm_num
  have b4 : (-88 : Rat) ≤ penaltySum (lowerS e.title) := by
    unfold penaltySum
    rw [mapSum_penalty]
    have hc : ((penaltyTerms.filter (fun term => hasSubS term (lowerS e.title))).length : Rat)
        ≤ 11 := by exact_mod_cast hpen
    linarith
  have b5 : (0 : Rat) ≤ if e.channelVerified then 5 else 0 := by
    split <;> norm_num
  have b6 : (0 : Rat) ≤
      if 0 < e.viewCount then min 5 ((e.viewCount : Rat) / 1000000) else 0 := by
    split
    · exact le_min (by norm_num) (div_nonneg (Nat.cast_nonneg _) (by norm_num))
    · exact le_refl 0
  have b7 : (0 : Rat) ≤ likeBonus e.likeCount e.dislikeCount := likeBonus_nonneg _ _
  linarith

/-- C5 counterexample: with filtering enabled, a profanity-flagged
candidate receives the sentinel −100, but a clean candidate whose title
stacks thirteen undesired-version keywords and exceeds eight minutes scores
−109, strictly below the flagged candidate — so flagged candidates do not
always score below non-flagged ones. -/
theorem score_result_not_always_below :
    contains_profanity true demoProfS (lowerS entryFlagged.title) = true ∧
    contains_profanity true demoProfS (lowerS entryPenalized.title) = false ∧
    contains_profanity true demoProfS (lowerS entryPenalized.channel) = false ∧
    score_result true demoProfS entryPenalized "zzz"
      < score_result true demoProfS entryFlagged "zzz" := by
  refine ⟨by decide, by decide, by decide, ?_⟩
  with_unfolding_all decide

/-- C5 (amended): with content filtering enabled, a candidate whose title
or channel contains profanity scores exactly the sentinel −100.0, and this
is strictly below the score of every non-flagged candidate whose title
contains at most 11 of the fifteen undesired-version keywords (such a
candidate's score is at least −98; a clean candidate with 12 or more
penalty keywords can fall below the sentinel, as the counterexample
shows). -/
theorem score_result_flagged_below (prof : String → Bool) (e1 e2 : SearchEntry) (q : String)
    (h1 : prof (lowerS e1.title) = true ∨ prof (lowerS e1.channel) = true)
    (h2 : prof (lowerS e2.title) = false) (h2c : prof (lowerS e2.channel) = false)
    (hpen : (penaltyTerms.filter (fun term => hasSubS term (lowerS e2.title))).length ≤ 11) :
    score_result true prof e1 q = -100 ∧
      score_result true prof e1 q < score_result true prof e2 q := by
  have hflag : score_result true prof e1 q = -100 := by
    unfold score_result
    rw [if_pos ⟨rfl, h1⟩]
  have hlb := score_result_clean_lb prof e2 q h2 h2c hpen
  refine ⟨hflag, ?_⟩
  rw [hflag]
  linarith

/-- Witness for C5's theorem on concrete flagged and clean candidates. -/
theorem score_result_flagged_below_witness :
    score_result true demoProfS entryFlagged "test song" = -100 ∧
      score_result true demoProfS entryFlagged "test song"
        < score_result true demoProfS entryClean "test song" :=
  score_result_flagged_below demoProfS entryFlagged entryClean "test song"
    (Or.inl (by decide)) (by decide) (by decide) (by decide)

/-! ## Claim C9: which fields the tag writer sets -/

theorem updateStep_ne (t : Tags) (md : MetaDict) (k k1 : String) (h : k ≠ k1) :
    (match md.lookup k1 with
      | some v => setTag t k1 v
      | none => t) k = t k := by
  cases md.lookup k1 with
  | none => rfl
  | some v => simp [setTag, h]

theorem updateFold_not_mem (keys : List String) (t : Tags) (md : MetaDict) (k : String)
    (hk : k ∉ keys) :
    (keys.foldl
      (fun t k =>
        match md.lookup k with
        | some v => setTag t k v
        | none => t) t) k = t k := by
  induction keys generalizing t with
  | nil => rfl
  | cons k1 ks ih =>
    rw [List.foldl_cons]
    have hne : k ≠ k1 := fun he => hk (he ▸ List.mem_cons_self k1 ks)
    rw [ih _ (fun hm => hk (List.mem_cons_of_mem k1 hm))]
    exact updateStep_ne t md k k1 hne

theorem updateFold_none (keys : List String) (t : Tags) (md : MetaDict) (k : String)
    (h : md.lookup k = none) :
    (keys.foldl
      (fun t k =>
        match md.lookup k with
        | some v => setTag t k v
        | none => t) t) k = t k := by
  induction keys generalizing t with
  | nil => rfl
  | cons k1 ks ih =>
    rw [List.foldl_cons, ih]
    by_cases he : k = k1
    · rw [← he, h]
    · exact updateStep_ne t md k k1 he

theorem updateFold_some (keys : List String) (hnd : keys.Nodup) (t : Tags) (md : MetaDict)
    (k : String) (v : String) (hk : k ∈ keys) (h : md.lookup k = some v) :
    (keys.foldl
      (fun t k =>
        match md.lookup k with
        | some v => setTag t k v
        | none => t) t) k = some v := by
  induction keys generalizing t with
  | nil => cases hk
  | cons k1 ks ih =>
    rw [List.foldl_cons]
    rcases List.mem_cons.mp hk with he | hm
    · have hnotin : k ∉ ks := by
        rw [he]
        exact (List.nodup_cons.mp hnd).1
      rw [updateFold_not_mem ks _ md k hnotin, ← he, h]
      simp [setTag]
    · exact ih (List.nodup_cons.mp hnd).2 _ hm

/-- C9 counterexample: `_update_metadata` sets a field whose value is the
empty string whenever its key is present in the record: on a file with no
prior tags and the dict whose album/date/genre values are `""`, the album
tag ends up set to `some ""` instead of staying unset. -/
theorem update_metadata_writes_empty_field :
    update_metadata_tags none mdDemo "album" = some "" ∧ emptyTags "album" = none :=
  ⟨rfl, rfl⟩

/-- C9 (amended): `_update_metadata` writes every one of the five mapped
fields whose key is present in the record — including fields whose value is
the empty string, which are written as the empty string rather than left
unset — and leaves every other tag unchanged (keys absent from the record
and tag fields outside the five mapped ones); `apply_metadata` writes title
and artist unconditionally and album/date/genre only when non-empty. -/
theorem tag_writer_field_behavior (t : Tags) (md : MetaDict) (m : TrackMetadata) :
    (∀ k v, k ∈ tagKeys → md.lookup k = some v → updateTags t md k = some v) ∧
    (∀ k, md.lookup k = none → updateTags t md k = t k) ∧
    (∀ k, k ∉ tagKeys → updateTags t md k = t k) ∧
    applyTags t m "title" = some m.title ∧
    applyTags t m "artist" = some m.artist ∧
    (m.album = "" → applyTags t m "album" = t "album") ∧
    (m.year = "" → applyTags t m "date" = t "date") ∧
    (m.genre = "" → applyTags t m "genre" = t "genre") := by
  refine ⟨?_, ?_, ?_, ?_, ?_, ?_, ?_, ?_⟩
  · intro k v hk hv
    exact updateFold_some tagKeys (by decide) t md k v hk hv
  · intro k hv
    exact updateFold_none tagKeys t md k hv
  · intro k hk
    exact updateFold_not_mem tagKeys t md k hk
  · unfold applyTags
    split_ifs <;> simp [setTag]
  · unfold applyTags
    split_ifs <;> simp [setTag]
  · intro h
    unfold applyTags
    split_ifs <;> simp_all [setTag]
  · intro h
    unfold applyTags
    split_ifs <;> simp_all [setTag]
  · intro h
    unfold applyTags
    split_ifs <;> simp_all [setTag]

/-- Witness for C9's theorem on the concrete dict with empty values. -/
theorem tag_writer_field_behavior_witness :
    updateTags emptyTags mdDemo "title" = some "T" ∧
      updateTags emptyTags mdDemo "composer" = none :=
  have h := tag_writer_field_behavior emptyTags mdDemo { title := "x", artist := "y" }
  ⟨h.1 "title" "T" (by decide) (by decide),
    (h.2.2.1 "composer" (by decide)).trans rfl⟩

/-! ## Helper lemmas for the orchestrator state combinators -/

theorem emitCb_fs (env : DTEnv) (s : DTState) (m : String) (p : Rat) :
    (emitCb env s m p).fs = s.fs := by
  unfold emitCb
  split <;> rfl

theorem emitCb_cbs_true (env : DTEnv) (s : DTState) (m : String) (p : Rat)
    (h : env.hasCallback = true) :
    (emitCb env s m p).cbs = s.cbs ++ [(m, p)] := by
  unfold emitCb
  rw [if_pos h]

theorem writeFlag_fs (s : DTState) (b : Bool) : (writeFlag s b).fs = s.fs := rfl

theorem writeFlag_cbs (s : DTState) (b : Bool) : (writeFlag s b).cbs = s.cbs := rfl

theorem dtWrap_ok (env : DTEnv) (p : String) (res : Option String) (sb : DTState) :
    dtWrap env (Except.ok p, res, sb) =
      { result := Except.ok p, resolved := res, final := writeFlag sb false } := rfl

theorem dtWrap_error_some (env : DTEnv) (e : PyErr) (stem : String) (sb : DTState) :
    dtWrap env (Except.error e, some stem, sb) =
      { result := Except.error e, resolved := some stem,
        final := writeFlag
          (emitCb env { sb with fs := sb.fs.filter (fun f => !(matchesStem stem f)) }
            (failMsg e) 0) false } := rfl

theorem dtWrap_error_none (env : DTEnv) (e : PyErr) (sb : DTState) :
    dtWrap env (Except.error e, none, sb) =
      { result := Except.error e, resolved := none,
        final := writeFlag (emitCb env sb (failMsg e) 0) false } := rfl

/-! ## Claim C1: failure cleanup of the download orchestrator -/

/-- C1: whenever a `download_track` run terminates with a re-raised error
after the output path was resolved, the final directory state contains no
file matching the `stem.*` glob of the output path (every sibling sharing
the stem, with any extension, was deleted), and — when a progress callback
is installed — the last callback before the error surfaces is the
descriptive failure message, fired after the cleanup. -/
theorem download_track_failure_cleanup (env : DTEnv) (e : PyErr) (stem : String)
    (hres : (download_track env).result = Except.error e)
    (hstem : (download_track env).resolved = some stem) :
    (∀ f ∈ (download_track env).final.fs, matchesStem stem f = false) ∧
      (env.hasCallback = true →
        (download_track env).final.cbs.getLast? = some (failMsg e, 0)) := by
  simp only [download_track] at hres hstem ⊢
  rcases hb : dtBody env (emitCb env (writeFlag
      { cancelled := env.cancelled0, fs := env.fs0, tick := 0, cbs := [], evs := [] } false)
      "Starting download..." 0) with ⟨r, res, sb⟩
  rw [hb] at hres hstem
  cases r with
  | ok p =>
    rw [dtWrap_ok] at hres
    simp at hres
  | error e' =>
    cases res with
    | none =>
      rw [dtWrap_error_none] at hstem
      simp at hstem
    | some stem' =>
      rw [dtWrap_error_some] at hres hstem ⊢
      have hstem2 : stem' = stem := by simpa using hstem
      have he2 : e' = e := by simpa using hres
      subst hstem2
      subst he2
      constructor
      · intro f hf
        rw [writeFlag_fs, emitCb_fs] at hf
        have := List.of_mem_filter hf
        simpa using this
      · intro hcb
        rw [writeFlag_cbs, emitCb_cbs_true _ _ _ _ hcb]
        simp

/-- Witness for C1's theorem on a concrete run whose download step raises a
403 after the path resolved. -/
theorem download_track_failure_cleanup_witness :
    (∀ f ∈ (download_track envDlFail).final.fs, matchesStem "Test Song" f = false) ∧
      (envDlFail.hasCallback = true →
        (download_track envDlFail).final.cbs.getLast? =
          some (failMsg (PyErr.runtime
            "YouTube is blocking our requests. Please try again later."), 0)) :=
  download_track_failure_cleanup envDlFail
    (PyErr.runtime "YouTube is blocking our requests. Please try again later.")
    "Test Song" rfl rfl

/-! ## Claim C10: who writes the cancellation flag -/

/-- `s'` extends `s` by events none of which is an orchestrator flag
write. -/
def ExtNoWrite (s s' : DTState) : Prop :=
  ∃ l, s'.evs = s.evs ++ l ∧ ∀ b, FlagEv.orchWrite b ∉ l

theorem extNoWrite_of_evs_eq {s s' : DTState} (h : s'.evs = s.evs) : ExtNoWrite s s' :=
  ⟨[], by simp [h], by simp⟩

theorem extNoWrite_refl (s : DTState) : ExtNoWrite s s := extNoWrite_of_evs_eq rfl

theorem extNoWrite_trans {a b c : DTState} (h1 : ExtNoWrite a b) (h2 : ExtNoWrite b c) :
    ExtNoWrite a c := by
  obtain ⟨l1, he1, hn1⟩ := h1
  obtain ⟨l2, he2, hn2⟩ := h2
  refine ⟨l1 ++ l2, by rw [he2, he1, List.append_assoc], ?_⟩
  intro bb hbb
  rcases List.mem_append.mp hbb with h | h
  · exact hn1 bb h
  · exact hn2 bb h

theorem emitCb_evs (env : DTEnv) (s : DTState) (m : String) (p : Rat) :
    (emitCb env s m p).evs = s.evs := by
  unfold emitCb
  split <;> rfl

theorem emitHookCbs_evs (env : DTEnv) (s : DTState) :
    (emitHookCbs env s).evs = s.evs := by
  unfold emitHookCbs
  split <;> rfl

theorem extNoWrite_emitCb (env : DTEnv) (s : DTState) (m : String) (p : Rat) :
    ExtNoWrite s (emitCb env s m p) := extNoWrite_of_evs_eq (emitCb_evs env s m p)

theorem extNoWrite_emitHookCbs (env : DTEnv) (s : DTState) :
    ExtNoWrite s (emitHookCbs env s) := extNoWrite_of_evs_eq (emitHookCbs_evs env s)

theorem extNoWrite_readFlag (env : DTEnv) (s : DTState) :
    ExtNoWrite s ((readFlag env s).2) := by
  unfold readFlag
  by_cases hi : env.interfere s.tick
  · refine ⟨[FlagEv.extSet, FlagEv.orchRead true], ?_, by simp⟩
    simp [hi]
  · refine ⟨[FlagEv.orchRead s.cancelled], ?_, by simp⟩
    simp [hi]

theorem writeFlag_evs (s : DTState) (b : Bool) :
    (writeFlag s b).evs = s.evs ++ [FlagEv.orchWrite b] := rfl

theorem extNoWrite_post_readFlag (env : DTEnv) {s0 X : DTState} (h : ExtNoWrite s0 X) :
    ExtNoWrite s0 ((readFlag env X).2) :=
  extNoWrite_trans h (extNoWrite_readFlag env X)

theorem extNoWrite_post_emitCb (env : DTEnv) (m : String) (p : Rat) {s0 X : DTState}
    (h : ExtNoWrite s0 X) : ExtNoWrite s0 (emitCb env X m p) :=
  extNoWrite_trans h (extNoWrite_emitCb env X m p)

theorem dtTagStep_extNoWrite (env : DTEnv) (md : MetaDict) (s : DTState) :
    ExtNoWrite s (dtTagStep env md s) := by
  simp only [dtTagStep]
  by_cases h : ¬(readFlag env s).1 = true
  · rw [if_pos h]
    cases env.updateMeta md with
    | ok x => exact extNoWrite_readFlag env s
    | error x => exact extNoWrite_post_emitCb env _ _ (extNoWrite_readFlag env s)
  · rw [if_neg h]
    exact extNoWrite_readFlag env s

theorem dtComplete_extNoWrite (env : DTEnv) (stem : String) (s : DTState) :
    ExtNoWrite s ((dtComplete env stem s).2.2) := by
  simp only [dtComplete]
  by_cases hcb : env.hasCallback = true
  · rw [if_pos hcb]
    by_cases h5 : ¬(readFlag env s).1 = true
    · rw [if_pos h5]
      by_cases h6 : (stem ++ ".mp3") ∉ (readFlag env s).2.fs
      · rw [if_pos h6]
        exact extNoWrite_readFlag env s
      · rw [if_neg h6]
        exact extNoWrite_post_emitCb env _ _ (extNoWrite_readFlag env s)
    · rw [if_neg h5]
      exact extNoWrite_readFlag env s
  · rw [if_neg hcb]
    exact extNoWrite_refl s

theorem dtFinish_extNoWrite (env : DTEnv) (stem : String) (info : VideoInfo) (s : DTState) :
    ExtNoWrite s ((dtFinish env stem info s).2.2) := by
  simp only [dtFinish]
  by_cases h : (stem ++ ".mp3") ∉ s.fs
  · rw [if_pos h]
    exact extNoWrite_refl s
  · rw [if_neg h]
    exact extNoWrite_trans
      (extNoWrite_trans (extNoWrite_emitCb env s "Finalizing metadata..." (19 / 20))
        (dtTagStep_extNoWrite env (videoMetaDict info)
          (emitCb env s "Finalizing metadata..." (19 / 20))))
      (dtComplete_extNoWrite env stem _)

theorem dtAfterDownload_extNoWrite (env : DTEnv) (stem : String) (info : VideoInfo)
    (s : DTState) : ExtNoWrite s ((dtAfterDownload env stem info s).2.2) := by
  simp only [dtAfterDownload]
  have hbase : ExtNoWrite s ((readFlag env (emitHookCbs env s)).2) :=
    extNoWrite_post_readFlag env (extNoWrite_emitHookCbs env s)
  by_cases h : (readFlag env (emitHookCbs env s)).1 = true
  · rw [if_pos h]
    by_cases h4 : (stem ++ ".mp3") ∈ (readFlag env (emitHookCbs env s)).2.fs
    · rw [if_pos h4]
      exact extNoWrite_trans hbase (extNoWrite_of_evs_eq rfl)
    · rw [if_neg h4]
      exact hbase
  · rw [if_neg h]
    exact extNoWrite_trans hbase (dtFinish_extNoWrite env stem info _)

theorem dtAfterPath_extNoWrite (env : DTEnv) (stem : String) (info : VideoInfo)
    (s : DTState) : ExtNoWrite s ((dtAfterPath env stem info s).2.2) := by
  simp only [dtAfterPath]
  by_cases h : (readFlag env s).1 = true
  · rw [if_pos h]
    exact extNoWrite_readFlag env s
  · rw [if_neg h]
    cases env.download (readFlag env s).2.fs with
    | error e => exact extNoWrite_readFlag env s
    | ok fs1 =>
      exact extNoWrite_trans
        (extNoWrite_trans (extNoWrite_readFlag env s) (extNoWrite_of_evs_eq rfl))
        (dtAfterDownload_extNoWrite env stem info _)

theorem dtWithInfo_extNoWrite (env : DTEnv) (info : VideoInfo) (s : DTState) :
    ExtNoWrite s ((dtWithInfo env info s).2.2) := by
  simp only [dtWithInfo]
  cases env.getOutputPath info with
  | error e => exact extNoWrite_refl s
  | ok stem => exact dtAfterPath_extNoWrite env stem info s

/-- The `try` body of `download_track` only appends reads and external sets
to the flag-event trace: it performs no orchestrator write. -/
theorem dtBody_extNoWrite (env : DTEnv) (s0 : DTState) :
    ExtNoWrite s0 ((dtBody env s0).2.2) := by
  simp only [dtBody]
  have hbase : ExtNoWrite s0
      ((readFlag env (emitCb env s0 "Fetching video info..." (1 / 10))).2) :=
    extNoWrite_post_readFlag env
      (extNoWrite_emitCb env s0 "Fetching video info..." (1 / 10))
  by_cases h : (readFlag env (emitCb env s0 "Fetching video info..." (1 / 10))).1 = true
  · rw [if_pos h]
    exact hbase
  · rw [if_neg h]
    cases env.extractInfo with
    | error e => exact hbase
    | ok oinfo =>
      cases oinfo with
      | none => exact hbase
      | some info => exact extNoWrite_trans hbase (dtWithInfo_extNoWrite env info _)

/-- C10 counterexample: the orchestrator does write the cancellation flag.
In a concrete run entered with a stale `true` flag, the very first event of
the trace is an orchestrator write of `false` (the reset
`self._cancelled = False` at the top of `download_track`), so the flag is
not "only ever read" by the orchestrator. -/
theorem orchestrator_writes_flag :
    FlagEv.orchWrite false ∈ (download_track envStaleFlag).final.evs ∧
      (download_track envStaleFlag).final.evs.head? = some (FlagEv.orchWrite false) := by
  constructor <;> with_unfolding_all decide

/-- C10 (amended): the orchestrator's only writes to the cancellation flag
are resets to `false` (at task entry and in the `finally` block); it never
sets the flag to `true` — in every run, every orchestrator write event in
the trace carries `false`, while `cancel_download`, run by the external
caller, is what sets the flag to `true` (recording an external-set event,
not an orchestrator write). -/
theorem orchestrator_flag_writes_only_false (env : DTEnv) :
    (∀ b, FlagEv.orchWrite b ∈ (download_track env).final.evs → b = false) ∧
    (∀ s : DTState, (cancel_download s).cancelled = true ∧
      (cancel_download s).evs = s.evs ++ [FlagEv.extSet]) := by
  constructor
  · intro b hb
    simp only [download_track] at hb
    have hext := dtBody_extNoWrite env (emitCb env (writeFlag
      { cancelled := env.cancelled0, fs := env.fs0, tick := 0, cbs := [], evs := [] } false)
      "Starting download..." 0)
    obtain ⟨l, hl, hnw⟩ := hext
    have hpre : (emitCb env (writeFlag
        { cancelled := env.cancelled0, fs := env.fs0, tick := 0, cbs := [], evs := [] } false)
        "Starting download..." 0).evs = [FlagEv.orchWrite false] := by
      rw [emitCb_evs, writeFlag_evs]
      rfl
    rw [hpre] at hl
    rcases hbody : dtBody env (emitCb env (writeFlag
        { cancelled := env.cancelled0, fs := env.fs0, tick := 0, cbs := [], evs := [] } false)
        "Starting download..." 0) with ⟨r, res, sb⟩
    rw [hbody] at hb hl
    have hsb : sb.evs = [FlagEv.orchWrite false] ++ l := hl
    cases r with
    | ok p =>
      rw [dtWrap_ok] at hb
      simp only [writeFlag_evs] at hb
      rw [hsb] at hb
      rcases List.mem_append.mp hb with h | h
      · rcases List.mem_append.mp h with h' | h'
        · simpa using h'
        · exact absurd h' (hnw b)
      · simpa using h
    | error e =>
      cases res with
      | none =>
        rw [dtWrap_error_none] at hb
        simp only [writeFlag_evs, emitCb_evs] at hb
        rw [hsb] at hb
        rcases List.mem_append.mp hb with h | h
        · rcases List.mem_append.mp h with h' | h'
          · simpa using h'
          · exact absurd h' (hnw b)
        · simpa using h
      | some stem =>
        rw [dtWrap_error_some] at hb
        simp only [writeFlag_evs, emitCb_evs] at hb
        have hfs : ({ sb with fs := sb.fs.filter (fun f => !(matchesStem stem f)) }).evs
            = sb.evs := rfl
        rw [hfs, hsb] at hb
        rcases List.mem_append.mp hb with h | h
        · rcases List.mem_append.mp h with h' | h'
          · simpa using h'
          · exact absurd h' (hnw b)
        · simpa using h
  · intro s
    exact ⟨rfl, rfl⟩

/-- Witness for C10's amended theorem at the concrete stale-flag run: the
reset write observed in that run's trace indeed carries `false`. -/
theorem orchestrator_flag_writes_only_false_witness : false = false :=
  (orchestrator_flag_writes_only_false envStaleFlag).1 false
    (by with_unfolding_all decide)

/-! ## Claim C7: tagging failures are non-fatal -/

theorem readFlag_no_interfere (env : DTEnv) (s : DTState)
    (h : env.interfere s.tick = false) :
    readFlag env s = (s.cancelled,
      { s with tick := s.tick + 1, evs := s.evs ++ [FlagEv.orchRead s.cancelled] }) := by
  unfold readFlag
  rw [h]
  simp

/-- C7: when the downloaded MP3 exists and the tag-writing step raises, the
task still succeeds: `download_track` returns the MP3 path, and the
callback trace is the start/fetch announcements, the yt-dlp hook messages,
the finalizing announcement, then the warning-level
"Warning: Metadata update failed, but download succeeded" (a message
distinct from the hard-failure formats), and finally
"Download complete!" at progress 1. -/
theorem download_track_tagging_nonfatal (env : DTEnv) (info : VideoInfo) (stem : String)
    (fs1 : List String) (e : PyErr)
    (hcb : env.hasCallback = true)
    (hinfo : env.extractInfo = Except.ok (some info))
    (hpath : env.getOutputPath info = Except.ok stem)
    (hdl : env.download env.fs0 = Except.ok fs1)
    (hmp3 : (stem ++ ".mp3") ∈ fs1)
    (htag : env.updateMeta (videoMetaDict info) = Except.error e)
    (hint : ∀ n, env.interfere n = false) :
    (download_track env).result = Except.ok (stem ++ ".mp3") ∧
    (download_track env).final.cbs =
      [("Starting download...", 0), ("Fetching video info...", 1 / 10)] ++ env.hookCbs ++
      [("Finalizing metadata...", 19 / 20),
       ("Warning: Metadata update failed, but download succeeded", 19 / 20),
       ("Download complete!", 1)] := by
  constructor <;>
    simp [download_track, dtBody, dtWithInfo, dtAfterPath, dtAfterDownload, dtFinish,
      dtTagStep, dtComplete, dtWrap, emitCb, emitHookCbs, writeFlag, readFlag,
      hcb, hinfo, hpath, hdl, hmp3, htag, hint]

/-- Witness for C7's theorem on a concrete run whose tag write raises. -/
theorem download_track_tagging_nonfatal_witness :
    (download_track envTagFail).result = Except.ok ("Test Song" ++ ".mp3") ∧
    (download_track envTagFail).final.cbs =
      [("Starting download...", 0), ("Fetching video info...", 1 / 10)]
        ++ envTagFail.hookCbs ++
      [("Finalizing metadata...", 19 / 20),
       ("Warning: Metadata update failed, but download succeeded", 19 / 20),
       ("Download complete!", 1)] :=
  download_track_tagging_nonfatal envTagFail infoDemo "Test Song" ["Test Song.mp3"]
    (PyErr.other "Metadata update failed") rfl rfl rfl rfl (by decide) rfl (fun _ => rfl)

end MusicDL
